import Mathlib

/-!
Verification of the kimina-lean-server process-pool service against its
natural-language specification.

The development shallowly embeds the Python sources:

* `server/process_utils.py` — process-termination primitives
  (`kill_process_group`, `kill_process`, `kill_process_safely`);
* `server/routers/ast.py`    — AST-export endpoints (`run_ast_one`,
  `ast_modules`, `ast_from_code`) and the export concurrency gate;
* the pool manager (`Manager`) and managed process (`Repl`), whose source
  modules are not part of the provided tree; they are modelled from the
  specification (sections 4.2 and 4.3), as marked on each definition.

Side-effecting Python code is embedded as pure functions over an explicit
environment describing the OS behaviour (signal delivery outcomes, subprocess
exit status, artifact readability); each function returns the list of
observable events it performs (signals attempted, log records, subprocess
spawns) together with its result, where a Python exception escaping the
function is an `Except.error`.
-/

namespace ProcessUtils

/-- Outcome of an attempt to deliver SIGKILL via `os.killpg` or `proc.kill()`:
either it succeeds, or the Python call raises `ProcessLookupError`,
`PermissionError`, or some other exception. For `kill_process_group` the
`os.getpgid` call sits in the same `try` block as `os.killpg`, so a
`ProcessLookupError` from `getpgid` is folded into `noSuchProcess`. -/
inductive SigOutcome
  | ok
  | noSuchProcess
  | permissionDenied
  | otherError (msg : String)
deriving DecidableEq

/-- Outcome of `await asyncio.wait_for(proc.wait(), timeout=timeout)`:
the process is reaped in time, the wait itself times out
(`asyncio.TimeoutError`), the process is already gone
(`ProcessLookupError`), or some other exception is raised. -/
inductive WaitOutcome
  | reaped
  | timedOut
  | noSuchProcess
  | otherError (msg : String)
deriving DecidableEq

/-- Environment describing one `asyncio.subprocess.Process` and how the OS
responds to the termination primitives: `returncode` is `some rc` iff the
underlying process has already exited; the three outcome fields say what
each OS interaction would do if attempted. -/
structure OsProc where
  pid : Nat
  returncode : Option Int
  killpgOutcome : SigOutcome
  killOutcome : SigOutcome
  waitOutcome : WaitOutcome
deriving DecidableEq

/-- Python exception escaping a termination primitive. -/
inductive PyErr
  | permission
  | other (msg : String)
deriving DecidableEq

/-- Observable events of the termination primitives: attempted signals
(`os.killpg`, `proc.kill()`), the reaping wait, and log records at their
level. Log messages are kept as short constants (the source interpolates
pids into them). -/
inductive Ev
  | killpgAttempt (pid : Nat)
  | killAttempt (pid : Nat)
  | waitAttempt (pid : Nat)
  | logDebug (msg : String)
  | logWarning (msg : String)
  | logError (msg : String)
deriving DecidableEq

/-- Log text for the warning issued when the group signal is refused with a
permissions error (process_utils.py lines 50-54). -/
def permFallbackMsg : String :=
  "Permission denied killing process group, falling back to process kill"

/-- Log text for the warning issued when the post-signal reaping wait times
out (process_utils.py lines 69-70 and 115-116). -/
def waitTimeoutMsg : String :=
  "Process did not terminate within timeout after SIGKILL"

/-- Embedding of the shared trailing wait block of `kill_process_group` and
`kill_process` (process_utils.py lines 65-75 and 111-121): wait up to
`timeout` for the process to be reaped; every outcome — including the wait
timing out — is caught and logged, never re-raised. -/
def waitBlock (p : OsProc) : List Ev :=
  match p.waitOutcome with
  | .reaped => [.waitAttempt p.pid, .logDebug "terminated successfully"]
  | .timedOut => [.waitAttempt p.pid, .logWarning waitTimeoutMsg]
  | .noSuchProcess => [.waitAttempt p.pid, .logDebug "already terminated"]
  | .otherError m => [.waitAttempt p.pid, .logError m]

/-- Embedding of `kill_process_group` (process_utils.py lines 16-75):
return immediately if the process already exited; otherwise SIGKILL the
process group; on `ProcessLookupError` return; on `PermissionError` log a
warning and fall back to `proc.kill()` (whose own `ProcessLookupError`
returns, and whose other exceptions are logged and re-raised); finally wait
for reaping via `waitBlock`. -/
def kill_process_group (p : OsProc) : List Ev × Except PyErr Unit :=
  if p.returncode.isSome then
    ([.logDebug "already terminated"], .ok ())
  else
    match p.killpgOutcome with
    | .noSuchProcess =>
        ([.killpgAttempt p.pid, .logDebug "not found, may already be terminated"], .ok ())
    | .permissionDenied =>
        match p.killOutcome with
        | .noSuchProcess =>
            ([.killpgAttempt p.pid, .logWarning permFallbackMsg, .killAttempt p.pid,
              .logDebug "not found during fallback kill"], .ok ())
        | .permissionDenied =>
            ([.killpgAttempt p.pid, .logWarning permFallbackMsg, .killAttempt p.pid,
              .logError "error during fallback process kill"], .error .permission)
        | .otherError m =>
            ([.killpgAttempt p.pid, .logWarning permFallbackMsg, .killAttempt p.pid,
              .logError m], .error (.other m))
        | .ok =>
            ([.killpgAttempt p.pid, .logWarning permFallbackMsg, .killAttempt p.pid]
              ++ waitBlock p, .ok ())
    | .otherError m =>
        ([.killpgAttempt p.pid], .error (.other m))
    | .ok =>
        ([.killpgAttempt p.pid] ++ waitBlock p, .ok ())

/-- Embedding of `kill_process` (process_utils.py lines 78-121): return
immediately if the process already exited; otherwise `proc.kill()`; on
`ProcessLookupError` return; other exceptions are logged and re-raised;
finally wait for reaping via `waitBlock`. -/
def kill_process (p : OsProc) : List Ev × Except PyErr Unit :=
  if p.returncode.isSome then
    ([.logDebug "already terminated"], .ok ())
  else
    match p.killOutcome with
    | .noSuchProcess =>
        ([.killAttempt p.pid, .logDebug "not found, may already be terminated"], .ok ())
    | .permissionDenied =>
        ([.killAttempt p.pid, .logError "error killing process"], .error .permission)
    | .otherError m =>
        ([.killAttempt p.pid, .logError m], .error (.other m))
    | .ok =>
        ([.killAttempt p.pid] ++ waitBlock p, .ok ())

/-- Embedding of `kill_process_safely` (process_utils.py lines 124-161):
return immediately if the process already exited; else try
`kill_process_group` when requested, catching any exception it raises and
falling back to `kill_process` with a warning; else just `kill_process`. -/
def kill_process_safely (p : OsProc) (use_process_group : Bool) : List Ev × Except PyErr Unit :=
  if p.returncode.isSome then
    ([], .ok ())
  else if use_process_group then
    match kill_process_group p with
    | (evs, .ok _) => (evs, .ok ())
    | (evs, .error _) =>
        (evs ++ [.logWarning "Process group kill failed, falling back to process kill"]
             ++ (kill_process p).1,
         (kill_process p).2)
  else
    kill_process p

/-- An event that delivers (or attempts to deliver) a signal to the OS. -/
def isSignalEv : Ev → Bool
  | .killpgAttempt _ => true
  | .killAttempt _ => true
  | _ => false

/-- Sample process for witnesses: already exited (returncode 0). -/
def exitedProc : OsProc :=
  { pid := 7, returncode := some 0, killpgOutcome := .ok, killOutcome := .ok,
    waitOutcome := .reaped }

/-- Sample process for witnesses: alive, group signal refused with a
permissions error, single-process kill succeeds. -/
def permDeniedProc : OsProc :=
  { pid := 8, returncode := none, killpgOutcome := .permissionDenied,
    killOutcome := .ok, waitOutcome := .reaped }

/-- Sample process for witnesses: alive, signals deliverable, but the
post-signal reaping wait times out. -/
def slowReapProc : OsProc :=
  { pid := 9, returncode := none, killpgOutcome := .ok, killOutcome := .ok,
    waitOutcome := .timedOut }

end ProcessUtils

namespace Ast

/-- Character class of `MODULE_RE = re.compile(r"^[A-Za-z0-9_.]+$")`
(ast.py line 18). -/
def isModuleChar (c : Char) : Bool :=
  c.isAlpha || c.isDigit || c == '_' || c == '.'

/-- Embedding of `MODULE_RE.match(module)` viewed as a Boolean (ast.py
line 18): the name is one or more characters from `[A-Za-z0-9_.]`. Python's
`$` also matches just before a single trailing newline, so a name with one
trailing newline is accepted too; the embedding keeps that fidelity by
stripping one trailing newline before testing. -/
def moduleReMatch (s : String) : Bool :=
  let cs := s.data
  let core := if cs.getLast? = some '\n' then cs.dropLast else cs
  !core.isEmpty && core.all isModuleChar

/-- Abstract parsed AST artifact (the `dict[str, Any]` loaded from the
`.out.json` file); nothing in the embedded code inspects it. -/
structure AstData where
  json : String
deriving DecidableEq

/-- Embedding of the `AstModuleResult` pydantic model (ast.py lines 25-28):
`ast` and `error` both default to `None`. -/
structure AstModuleResult where
  module : String
  ast : Option AstData := none
  error : Option String := none
deriving DecidableEq

/-- Behaviour of one `lake exe ast-export` subprocess invocation:
`proc.communicate()` either exceeds the caller-supplied timeout, or the
process exits with a returncode and captured stderr; `raisesOther` covers
an unexpected exception in the export attempt (e.g. spawning itself fails),
caught by the outer `except Exception` of `run_ast_one`. -/
inductive RunOutcome
  | timesOut
  | exits (returncode : Int) (stderr : String)
  | raisesOther (msg : String)
deriving DecidableEq

/-- Outcome of `json.loads(out_path.read_text())` on the deterministically
located output artifact: parsed data, or the message of the exception
raised while reading/parsing. -/
inductive ReadOutcome
  | ok (d : AstData)
  | fails (msg : String)
deriving DecidableEq

/-- Environment for one `run_ast_one` call. -/
structure ExportEnv where
  run : RunOutcome
  readArtifact : ReadOutcome
deriving DecidableEq

/-- Observable effects of one `run_ast_one` call: spawning the export
subprocess, the kind of kill issued on timeout (`proc.kill()` signals the
single process; a group kill never occurs in this code), and reading the
output artifact. -/
inductive AstEv
  | spawn
  | killSingle
  | killGroup
  | readArtifactFile
deriving DecidableEq

/-- Embedding of `run_ast_one` (ast.py lines 38-73): reject names not
matching `MODULE_RE` without spawning; on timeout call `proc.kill()` and
return a timeout error result; on non-zero exit return the captured stderr
(or a default when empty); on success read the artifact, a read failure
becoming an error result; any unexpected exception becomes an error result
via the outer `except Exception`. The function is total: no exception
escapes it. -/
def run_ast_one (module : String) (timeout : Nat) (env : ExportEnv) :
    List AstEv × AstModuleResult :=
  if !moduleReMatch module then
    ([], { module := module, error := some "Invalid module name" })
  else
    match env.run with
    | .raisesOther m => ([], { module := module, error := some m })
    | .timesOut =>
        ([.spawn, .killSingle],
         { module := module,
           error := some ("timed out after " ++ toString timeout ++ "s") })
    | .exits rc stderr =>
        if rc ≠ 0 then
          ([.spawn],
           { module := module,
             error := some (if stderr = "" then "ast-export failed" else stderr) })
        else
          match env.readArtifact with
          | .ok d =>
              ([.spawn, .readArtifactFile], { module := module, ast := some d })
          | .fails e =>
              ([.spawn, .readArtifactFile],
               { module := module, error := some ("failed to read AST: " ++ e) })

/-- Embedding of the POST /ast handler `ast_modules` (ast.py lines 75-81):
`asyncio.gather` over one gated `run_ast_one` worker per submitted module,
preserving order; the response aggregates exactly the per-module results. -/
def ast_modules (modules : List String) (timeout : Nat)
    (env : String → ExportEnv) : List AstModuleResult :=
  modules.map fun m => (run_ast_one m timeout (env m)).2

/-- Embedding of an `HTTPException(status, detail)` raised by a handler. -/
structure HTTPError where
  status : Nat
  detail : String
deriving DecidableEq

/-- Embedding of the `AstCodeRequest` pydantic model (ast.py lines 33-36). -/
structure AstCodeRequest where
  code : String
  module : String := "User.Code"
  timeout : Nat := 60
deriving DecidableEq

/-- Behaviour of the one-shot `ast-export` subprocess spawned by
`ast_from_code`. -/
inductive CodeRun
  | timesOut
  | exits (returncode : Int) (stderr : String)
deriving DecidableEq

/-- Environment for one POST /ast_code call: whether the configured
`ast-export` binary exists, the subprocess behaviour, and the artifact
read outcome. -/
structure CodeEnv where
  binExists : Bool
  run : CodeRun
  readArtifact : ReadOutcome
deriving DecidableEq

/-- Observable effects of one POST /ast_code call, in program order. The
semaphore slot events record that `async with manager.ast_semaphore` wraps
only the `create_subprocess_exec` call (ast.py lines 126-134); the await of
`proc.communicate()` (line 136) happens after the slot is released. -/
inductive CodeEv
  | writeTempFile
  | acquireSlot
  | spawn
  | releaseSlot
  | awaitSubprocess
  | killSingle
  | readArtifactFile
deriving DecidableEq

/-- Embedding of the POST /ast_code handler `ast_from_code` (ast.py lines
95-164): reject an invalid module name with HTTP 400 before any file or
subprocess work; 500 when the export binary is missing; otherwise write the
temp module file, spawn under the semaphore, release the slot, await the
subprocess, and turn timeout / non-zero exit / artifact-read failure into
per-job error results (never into exceptions). -/
def ast_from_code (req : AstCodeRequest) (env : CodeEnv) :
    List CodeEv × Except HTTPError (List AstModuleResult) :=
  if !moduleReMatch req.module then
    ([], .error { status := 400, detail := "Invalid module name" })
  else if !env.binExists then
    ([], .error { status := 500, detail := "ast-export not found" })
  else
    match env.run with
    | .timesOut =>
        ([.writeTempFile, .acquireSlot, .spawn, .releaseSlot, .awaitSubprocess,
          .killSingle],
         .ok [{ module := req.module,
                error := some ("timed out after " ++ toString req.timeout ++ "s") }])
    | .exits rc stderr =>
        if rc ≠ 0 then
          ([.writeTempFile, .acquireSlot, .spawn, .releaseSlot, .awaitSubprocess],
           .ok [{ module := req.module,
                  error := some (if stderr = "" then "ast-export failed" else stderr) }])
        else
          match env.readArtifact with
          | .ok d =>
              ([.writeTempFile, .acquireSlot, .spawn, .releaseSlot, .awaitSubprocess,
                .readArtifactFile],
               .ok [{ module := req.module, ast := some d }])
          | .fails e =>
              ([.writeTempFile, .acquireSlot, .spawn, .releaseSlot, .awaitSubprocess,
                .readArtifactFile],
               .ok [{ module := req.module,
                      error := some ("failed to read AST: " ++ e) }])

/-- Results carried by a handler response (empty when the handler raised an
HTTP error instead of answering). -/
def resultsOf : Except HTTPError (List AstModuleResult) → List AstModuleResult
  | .ok rs => rs
  | .error _ => []

/-- Decidable equality for `Except`, used to evaluate handler outcomes on
concrete inputs. -/
instance {ε α : Type} [DecidableEq ε] [DecidableEq α] : DecidableEq (Except ε α) :=
  fun x y =>
    match x, y with
    | .ok a, .ok b =>
        if h : a = b then isTrue (by simp [h]) else isFalse (by simp [h])
    | .ok _, .error _ => isFalse (by simp)
    | .error _, .ok _ => isFalse (by simp)
    | .error e, .error f =>
        if h : e = f then isTrue (by simp [h]) else isFalse (by simp [h])

/-- A result with exactly one of `ast` / `error` populated. -/
def exclusiveB (r : AstModuleResult) : Bool :=
  (r.ast.isSome && r.error.isNone) || (r.error.isSome && r.ast.isNone)

/-- Sample environment used by witnesses: successful export. -/
def okEnv : ExportEnv :=
  { run := .exits 0 "", readArtifact := .ok { json := "{}" } }

/-- Sample environment used by evidence theorems: the subprocess exceeds
its timeout. -/
def timeoutEnv : ExportEnv :=
  { run := .timesOut, readArtifact := .fails "unreadable" }

/-- Sample /ast_code environment whose subprocess exceeds its timeout. -/
def timeoutCodeEnv : CodeEnv :=
  { binExists := true, run := .timesOut, readArtifact := .fails "unreadable" }

/-- Sample /ast_code environment for witnesses: successful export. -/
def okCodeEnv : CodeEnv :=
  { binExists := true, run := .exits 0 "", readArtifact := .ok { json := "{}" } }

/-- Module name containing a path separator and shell metacharacters; it
does not match `MODULE_RE`. -/
def badModule : String := "../etc/passwd"

/-- A /ast_code request carrying the invalid module name. -/
def badCodeReq : AstCodeRequest := { code := "", module := badModule, timeout := 60 }

end Ast

namespace Gate

/-- Atomic actions of one export job relevant to the concurrency gate:
acquire a semaphore slot, spawn the subprocess, await its completion,
release the slot. -/
inductive GAct
  | acq
  | spawn
  | wait
  | rel
deriving DecidableEq

/-- Control-flow shape of one POST /ast worker (ast.py lines 77-79) and of
GET /ast (lines 91-92): `async with manager.ast_semaphore` is held around
the whole `run_ast_one`, i.e. around both the subprocess spawn and the wait
for its completion. -/
def workerProg : List GAct := [.acq, .spawn, .wait, .rel]

/-- Control-flow shape of one POST /ast_code request (ast.py lines
126-136): `async with manager.ast_semaphore` wraps only
`create_subprocess_exec`; `await proc.communicate()` runs after the slot
has been released. -/
def astCodeProg : List GAct := [.acq, .spawn, .rel, .wait]

/-- Interleaving state of several export jobs sharing the semaphore:
`sem` is the number of available slots, `running` the number of export
subprocesses spawned and not yet reaped, `jobs` the remaining program of
each job. -/
structure GateState where
  sem : Nat
  running : Nat
  jobs : List (List GAct)
deriving DecidableEq

/-- Effect of one atomic action on the semaphore counter and the number of
running subprocesses; `acq` is enabled only when a slot is available
(an asyncio semaphore suspends the task otherwise). -/
def applyAct (sem running : Nat) : GAct → Option (Nat × Nat)
  | .acq => if sem = 0 then none else some (sem - 1, running)
  | .rel => some (sem + 1, running)
  | .spawn => some (sem, running + 1)
  | .wait => some (sem, running - 1)

/-- Run the next atomic action of job `i`, if it exists and is enabled. -/
def stepJob (s : GateState) (i : Nat) : Option GateState :=
  match s.jobs.get? i with
  | none => none
  | some [] => none
  | some (a :: rest) =>
      (applyAct s.sem s.running a).map fun pr =>
        { sem := pr.1, running := pr.2, jobs := s.jobs.set i rest }

/-- Run a cooperative schedule: at each step the scheduler picks which job
executes its next atomic action; `none` if some pick is disabled. -/
def runSched (s : GateState) : List Nat → Option GateState
  | [] => some s
  | i :: rest => (stepJob s i).bind fun s2 => runSched s2 rest

/-- Initial state: `cap` free slots, no running subprocess, the given
jobs. -/
def initGate (cap : Nat) (jobs : List (List GAct)) : GateState :=
  { sem := cap, running := 0, jobs := jobs }

end Gate

namespace Repl

/-- Modelled from the spec: the state of one `Repl` managed process (spec
sections 3 and 4.2) — its source module `server/repl.py` is not among the
provided files, only its tests are. `procAlive` says whether the owned OS
process exists and has not exited, `killedFlag` is the monotonic killed
flag, `closedFlag` records a graceful close, `uses` is the use counter. -/
structure ReplState where
  procAlive : Bool
  killedFlag : Bool
  closedFlag : Bool
  uses : Nat
deriving DecidableEq

/-- Side effect of a lifecycle operation: one ProcessTerminator invocation
against the owned process. -/
inductive ReplEv
  | terminate
deriving DecidableEq

/-- Modelled from the spec: observer `is_killed` — a pure function of the
current state (spec section 4.2). -/
def is_killed (r : ReplState) : Bool := r.killedFlag

/-- Modelled from the spec: observer `is_running` holds iff a process
handle exists, has not exited, and the killed flag is false (spec
section 3). -/
def is_running (r : ReplState) : Bool := r.procAlive && !r.killedFlag

/-- Modelled from the spec: `kill()` (`kill_immediately`) calls
ProcessTerminator against the owned process when one is alive, sets the
killed flag and leaves the process dead (spec section 4.2); on an
already-dead or never-started process the terminator is not invoked, so a
repeated call has no further side effects. Matches
`test_repl_kill_immediately_idempotent` and
`test_repl_kill_immediately_on_unstarted_repl`. -/
def kill (r : ReplState) : ReplState × List ReplEv :=
  ({ r with killedFlag := true, procAlive := false },
   if r.procAlive then [.terminate] else [])

/-- End state of one `kill()` call. -/
def killSt (r : ReplState) : ReplState := (kill r).1

/-- Modelled from the spec: `close()` — graceful teardown that falls back
to the same termination primitive if the process is still alive; idempotent
and safe to call even after `kill()` (the second terminal transition is a
no-op, not an error). The embedding is a total function: `close` never
raises. Matches `test_repl_close_idempotent_after_kill`. -/
def close (r : ReplState) : ReplState × List ReplEv :=
  ({ r with closedFlag := true, procAlive := false },
   if r.procAlive then [.terminate] else [])

/-- Sample running, unkilled process for witnesses. -/
def runningRepl : ReplState :=
  { procAlive := true, killedFlag := false, closedFlag := false, uses := 0 }

end Repl

namespace Pool

/-- Modelled from the spec: a `ManagedProcess` as tracked by the pool
manager (spec sections 3 and 4.3) — its source module `server/manager.py`
is not among the provided files, only its tests are. `pid` is the stable
unique identity, `killed` the monotonic killed flag, `uses` the use
counter, `header` the priming preamble context used by the reuse scan. -/
structure MProc where
  pid : Nat
  killed : Bool
  uses : Nat
  header : String
deriving DecidableEq

/-- Modelled from the spec: the `Manager` pool state — capacity,
reuse-limit, the ordered free collection, the busy collection (all guarded
by one lock/condition pair, so each operation below is atomic), and the
next fresh identity. -/
structure PoolState where
  capacity : Nat
  reuseLimit : Nat
  free : List MProc
  busy : List MProc
  nextId : Nat
deriving DecidableEq

/-- Modelled from the spec: the reuse scan of `checkout` (spec section
4.3): scan `free` in insertion order for the first process whose killed
flag is false and whose preamble context matches, discarding (destroying)
any killed entries encountered; returns the remaining free list and the
found process. -/
def scanFree (h : String) : List MProc → List MProc × Option MProc
  | [] => ([], none)
  | p :: rest =>
      if p.killed then scanFree h rest
      else if p.header = h then (rest, some p)
      else
        let r := scanFree h rest
        (p :: r.1, r.2)

/-- Modelled from the spec: `destroy` (spec section 4.3) — remove the
process from whichever collection it is in (tolerant if already absent),
tear the process down, notify waiters. -/
def destroyPid (s : PoolState) (pid : Nat) : PoolState :=
  { s with free := s.free.filter (fun p => p.pid != pid),
           busy := s.busy.filter (fun p => p.pid != pid) }

/-- Modelled from the spec: `checkout`/`get_repl` (spec section 4.3). With
`reuse`, scan `free` (destroying the killed entries found) for a
compatible process and move it to `busy`; otherwise, when
`|free| + |busy| < capacity`, create, spawn and prime a fresh process into
`busy`; otherwise block on the condition variable — the returned state then
records only the destruction of the scanned-out killed entries, and no
process is handed out yet. -/
def checkout (s : PoolState) (h : String) (reuse : Bool) : PoolState × Option MProc :=
  let free1 := if reuse then (scanFree h s.free).1 else s.free
  let found := if reuse then (scanFree h s.free).2 else none
  match found with
  | some p => ({ s with free := free1, busy := p :: s.busy }, some p)
  | none =>
      if free1.length + s.busy.length < s.capacity then
        let np : MProc := { pid := s.nextId, killed := false, uses := 0, header := h }
        ({ s with free := free1, busy := np :: s.busy, nextId := s.nextId + 1 }, some np)
      else
        ({ s with free := free1 }, none)

/-- Modelled from the spec: `release` (spec section 4.3) — under the lock,
look the released handle up in `busy`; if its killed flag is set or its use
counter has reached the reuse-limit, destroy it instead of freeing it;
otherwise move it from `busy` to `free`. Releasing a handle that is not in
`busy` is a caller error and leaves the state unchanged. -/
def releasePid (s : PoolState) (pid : Nat) : PoolState :=
  match s.busy.find? (fun p => p.pid == pid) with
  | none => s
  | some p =>
      if p.killed = true ∨ s.reuseLimit ≤ p.uses then destroyPid s pid
      else { s with busy := s.busy.filter (fun q => q.pid != pid),
                    free := s.free ++ [p] }

/-- Modelled from the spec: a checked-out process's killed flag becoming
true while it is busy (e.g. an interaction timeout triggered an internal
kill, spec section 4.2); the flag is monotonic. -/
def markBusyKilled (s : PoolState) (pid : Nat) : PoolState :=
  { s with busy := s.busy.map fun p =>
      if p.pid == pid then { p with killed := true } else p }

/-- Modelled from the spec: `cleanup` (spec section 4.3) — destroys every
tracked process, free and busy, draining the pool to empty at service
shutdown. -/
def cleanup (s : PoolState) : PoolState :=
  { s with free := [], busy := [] }

/-- Modelled from the spec: the empty pool at service start, with the
configured capacity and reuse-limit. -/
def initPool (cap lim : Nat) : PoolState :=
  { capacity := cap, reuseLimit := lim, free := [], busy := [], nextId := 0 }

/-- One atomic pool transition: a manager operation (checkout, release,
destroy, cleanup) or a checked-out process being killed while busy. -/
inductive PoolStep : PoolState → PoolState → Prop
  | checkoutStep (s : PoolState) (h : String) (reuse : Bool) :
      PoolStep s (checkout s h reuse).1
  | releaseStep (s : PoolState) (pid : Nat) : PoolStep s (releasePid s pid)
  | destroyStep (s : PoolState) (pid : Nat) : PoolStep s (destroyPid s pid)
  | cleanupStep (s : PoolState) : PoolStep s (cleanup s)
  | markKilledStep (s : PoolState) (pid : Nat) : PoolStep s (markBusyKilled s pid)

/-- Pool states reachable from an initial empty pool through the manager
operations. -/
inductive Reachable : PoolState → Prop
  | init (cap lim : Nat) : Reachable (initPool cap lim)
  | step {s t : PoolState} : Reachable s → PoolStep s t → Reachable t

/-- The pool invariant of spec sections 3 and 8: no member of `free` has
its killed flag set, and the sizes of `free` and `busy` sum to at most the
capacity. -/
def PoolInv (s : PoolState) : Prop :=
  (∀ p ∈ s.free, p.killed = false) ∧ s.free.length + s.busy.length ≤ s.capacity

/-- Sample pool state for witnesses: one busy process whose killed flag
became true while checked out. -/
def demoPool : PoolState :=
  { capacity := 2, reuseLimit := 1, free := [],
    busy := [{ pid := 0, killed := true, uses := 0, header := "h" }],
    nextId := 1 }

end Pool

namespace ProcessUtils

/-- C5: for every process whose underlying OS process has already exited
(`returncode` is set), `kill_process_group`, `kill_process` and
`kill_process_safely` are immediate no-ops: no signal is attempted and no
exception is raised. -/
theorem c5_already_exited_noop (p : OsProc) (rc : Int) (upg : Bool)
    (h : p.returncode = some rc) :
    ((kill_process_group p).1.all (fun e => !isSignalEv e) = true
      ∧ (kill_process_group p).2 = .ok ())
    ∧ ((kill_process p).1.all (fun e => !isSignalEv e) = true
      ∧ (kill_process p).2 = .ok ())
    ∧ (kill_process_safely p upg = ([], .ok ())) := by
  simp [kill_process_group, kill_process, kill_process_safely, h, isSignalEv]

/-- Closed instance of `c5_already_exited_noop` at a concrete exited
process. -/
theorem c5_already_exited_noop_witness :
    ((kill_process_group exitedProc).1.all (fun e => !isSignalEv e) = true
      ∧ (kill_process_group exitedProc).2 = .ok ())
    ∧ ((kill_process exitedProc).1.all (fun e => !isSignalEv e) = true
      ∧ (kill_process exitedProc).2 = .ok ())
    ∧ (kill_process_safely exitedProc true = ([], .ok ())) :=
  c5_already_exited_noop exitedProc 0 true rfl

/-- C6: if the group-level SIGKILL fails with a permissions error,
`kill_process_group` logs the refusal at warning level, falls back to
signaling the process alone, and — whenever the fallback kill itself does
not raise — returns normally, so the permissions failure is never
propagated to the caller. -/
theorem c6_permission_fallback (p : OsProc)
    (h1 : p.returncode = none) (h2 : p.killpgOutcome = .permissionDenied) :
    Ev.logWarning permFallbackMsg ∈ (kill_process_group p).1
    ∧ Ev.killAttempt p.pid ∈ (kill_process_group p).1
    ∧ ((p.killOutcome = .ok ∨ p.killOutcome = .noSuchProcess) →
        (kill_process_group p).2 = .ok ()) := by
  cases hk : p.killOutcome <;>
    simp [kill_process_group, h1, h2, hk]

/-- Closed instance of `c6_permission_fallback` at a concrete process whose
group kill is refused and whose fallback kill succeeds. -/
theorem c6_permission_fallback_witness :
    Ev.logWarning permFallbackMsg ∈ (kill_process_group permDeniedProc).1
    ∧ Ev.killAttempt permDeniedProc.pid ∈ (kill_process_group permDeniedProc).1
    ∧ (kill_process_group permDeniedProc).2 = .ok () :=
  ⟨(c6_permission_fallback permDeniedProc rfl rfl).1,
   (c6_permission_fallback permDeniedProc rfl rfl).2.1,
   (c6_permission_fallback permDeniedProc rfl rfl).2.2 (Or.inl rfl)⟩

/-- C7: after the kill signal has been delivered, `kill_process_group` and
`kill_process` wait for the OS to reap the process; if that wait times out,
a warning is logged and the function still returns normally — the timeout
is never raised to the caller. -/
theorem c7_wait_timeout_nonfatal (p : OsProc)
    (h1 : p.returncode = none) (hw : p.waitOutcome = .timedOut) :
    (p.killpgOutcome = .ok →
      (kill_process_group p).2 = .ok ()
        ∧ Ev.logWarning waitTimeoutMsg ∈ (kill_process_group p).1)
    ∧ (p.killOutcome = .ok →
      (kill_process p).2 = .ok ()
        ∧ Ev.logWarning waitTimeoutMsg ∈ (kill_process p).1) := by
  constructor
  · intro hg
    simp [kill_process_group, waitBlock, h1, hg, hw]
  · intro hk
    simp [kill_process, waitBlock, h1, hk, hw]

/-- Closed instance of `c7_wait_timeout_nonfatal` at a concrete process
whose reaping wait times out. -/
theorem c7_wait_timeout_nonfatal_witness :
    ((kill_process_group slowReapProc).2 = .ok ()
      ∧ Ev.logWarning waitTimeoutMsg ∈ (kill_process_group slowReapProc).1)
    ∧ ((kill_process slowReapProc).2 = .ok ()
      ∧ Ev.logWarning waitTimeoutMsg ∈ (kill_process slowReapProc).1) :=
  ⟨(c7_wait_timeout_nonfatal slowReapProc rfl rfl).1 rfl,
   (c7_wait_timeout_nonfatal slowReapProc rfl rfl).2 rfl⟩

end ProcessUtils

namespace Ast

/-- The `module` field of a `run_ast_one` result is always the submitted
module name. -/
theorem run_ast_one_module (m : String) (t : Nat) (env : ExportEnv) :
    ((run_ast_one m t env).2).module = m := by
  cases hb : moduleReMatch m
  · simp [run_ast_one, hb]
  · cases hr : env.run with
    | raisesOther e => simp [run_ast_one, hb, hr]
    | timesOut => simp [run_ast_one, hb, hr]
    | exits rc stderr =>
        by_cases hrc : rc = 0
        · cases ha : env.readArtifact <;> simp [run_ast_one, hb, hr, hrc, ha]
        · simp [run_ast_one, hb, hr, hrc]

/-- C9: every result produced by `run_ast_one` or answered by
`ast_from_code` has exactly one of its `ast` / `error` fields populated —
`ast` non-null and `error` null on success, `error` non-null and `ast`
null on failure, never both. -/
theorem c9_result_exclusive :
    (∀ m t env, exclusiveB (run_ast_one m t env).2 = true)
    ∧ (∀ req env, (resultsOf (ast_from_code req env).2).all exclusiveB = true) := by
  constructor
  · intro m t env
    cases hb : moduleReMatch m
    · simp [run_ast_one, hb, exclusiveB]
    · cases hr : env.run with
      | raisesOther e => simp [run_ast_one, hb, hr, exclusiveB]
      | timesOut => simp [run_ast_one, hb, hr, exclusiveB]
      | exits rc stderr =>
          by_cases hrc : rc = 0
          · cases ha : env.readArtifact <;>
              simp [run_ast_one, hb, hr, hrc, ha, exclusiveB]
          · simp [run_ast_one, hb, hr, hrc, exclusiveB]
  · intro req env
    cases hb : moduleReMatch req.module
    · simp [ast_from_code, hb, resultsOf]
    · cases hbin : env.binExists
      · simp [ast_from_code, hb, hbin, resultsOf]
      · cases hr : env.run with
        | timesOut => simp [ast_from_code, hb, hbin, hr, resultsOf, exclusiveB]
        | exits rc stderr =>
            by_cases hrc : rc = 0
            · cases ha : env.readArtifact <;>
                simp [ast_from_code, hb, hbin, hr, hrc, ha, resultsOf, exclusiveB]
            · simp [ast_from_code, hb, hbin, hr, hrc, resultsOf, exclusiveB]

/-- C8: the POST /ast response has exactly one result per submitted module,
in order; the result at position `i` is exactly `run_ast_one` applied to
the `i`-th module and its own environment (so one job's failure never
perturbs the others), and it carries that module's name. -/
theorem c8_batch_results (modules : List String) (t : Nat)
    (env : String → ExportEnv) :
    (ast_modules modules t env).length = modules.length
    ∧ (∀ i : Nat, (ast_modules modules t env)[i]?
        = (modules[i]?).map fun m => (run_ast_one m t (env m)).2)
    ∧ (∀ i : Nat, ((ast_modules modules t env)[i]?).map AstModuleResult.module
        = modules[i]?) := by
  refine ⟨by simp [ast_modules], fun i => by simp [ast_modules], fun i => ?_⟩
  simp only [ast_modules, List.getElem?_map, Option.map_map]
  cases h : modules[i]? with
  | none => rfl
  | some m => simp [Function.comp, run_ast_one_module]

/-- C10: a module name that does not match `MODULE_RE` makes `run_ast_one`
return the `Invalid module name` error result without spawning any
subprocess, and makes POST /ast_code answer HTTP 400 before any file or
subprocess work. -/
theorem c10_invalid_module_rejected (m : String) (t : Nat) (env : ExportEnv)
    (req : AstCodeRequest) (cenv : CodeEnv)
    (h : moduleReMatch m = false) (hm : req.module = m) :
    run_ast_one m t env = ([], { module := m, error := some "Invalid module name" })
    ∧ ast_from_code req cenv
        = ([], .error { status := 400, detail := "Invalid module name" }) := by
  constructor
  · simp [run_ast_one, h]
  · simp [ast_from_code, hm, h]

/-- Closed instance of `c10_invalid_module_rejected` at the concrete
invalid name containing a path separator. -/
theorem c10_invalid_module_rejected_witness :
    run_ast_one badModule 60 okEnv
      = ([], { module := badModule, error := some "Invalid module name" })
    ∧ ast_from_code badCodeReq okCodeEnv
        = ([], .error { status := 400, detail := "Invalid module name" }) :=
  c10_invalid_module_rejected badModule 60 okEnv badCodeReq okCodeEnv (by decide) rfl

/-- C4: evaluation of the export runner at a timed-out job. Both timeout
sites (`run_ast_one`, ast.py line 54, and `ast_from_code`, line 138) call
`proc.kill()`, which signals only the directly spawned process — no
process-group kill ever occurs — while the handler does return a per-job
failure result carrying the timeout indication instead of raising. This
contradicts the specified group kill (spec section 4.4) and the stated
purpose of `process_utils` ("essential for handling timeouts in REPL and
AST export operations"), whose group-kill primitives `run_ast_one` never
uses. -/
theorem c4_timeout_kill_is_single_process :
    ((run_ast_one "Mathlib" 60 timeoutEnv).1 = [AstEv.spawn, AstEv.killSingle]
      ∧ AstEv.killGroup ∉ (run_ast_one "Mathlib" 60 timeoutEnv).1
      ∧ (run_ast_one "Mathlib" 60 timeoutEnv).2
          = { module := "Mathlib", error := some "timed out after 60s" })
    ∧ ((ast_from_code { code := "#check Nat", module := "User.Code", timeout := 60 }
          timeoutCodeEnv).1
        = [CodeEv.writeTempFile, CodeEv.acquireSlot, CodeEv.spawn, CodeEv.releaseSlot,
           CodeEv.awaitSubprocess, CodeEv.killSingle]
      ∧ (ast_from_code { code := "#check Nat", module := "User.Code", timeout := 60 }
          timeoutCodeEnv).2
        = .ok [{ module := "User.Code", error := some "timed out after 60s" }]) := by
  decide

end Ast

namespace Gate

/-- C3: two concurrent POST /ast_code jobs under a gate of capacity 1 reach
a state with two export subprocesses running at once. The schedule: job 0
acquires the slot, spawns, and leaves the `async with` block (releasing the
slot, since in ast.py lines 126-136 the semaphore wraps only the spawn);
then job 1 acquires the freed slot and spawns while job 0's subprocess is
still running. The claimed bound (never more than `cap` concurrent export
subprocesses) is therefore violated by the /ast_code path. -/
theorem c3_gate_bound_violated :
    (runSched (initGate 1 [astCodeProg, astCodeProg]) [0, 0, 0, 1, 1]).map
      (fun s => s.running) = some 2 := by
  decide

end Gate

namespace Repl

/-- C2: kill is idempotent on a managed process — for every process, `n`
kill calls (n ≥ 1) end in the same state as one, that state has
`is_killed = true` and `is_running = false`, a repeated kill has no
further side effects, and close after kill is a no-op (no terminator
invocation, observables unchanged) that does not raise. -/
theorem c2_kill_idempotent (r : ReplState) (n : Nat) (h : 1 ≤ n) :
    killSt^[n] r = killSt r
    ∧ is_killed (killSt r) = true
    ∧ is_running (killSt r) = false
    ∧ kill (killSt r) = (killSt r, [])
    ∧ (close (killSt r)).2 = []
    ∧ is_killed ((close (killSt r)).1) = true
    ∧ is_running ((close (killSt r)).1) = false := by
  have hfix : killSt (killSt r) = killSt r := rfl
  have hiter : ∀ m, killSt^[m] (killSt r) = killSt r := by
    intro m
    induction m with
    | zero => rfl
    | succ k ih => rw [Function.iterate_succ_apply, hfix, ih]
  obtain ⟨m, rfl⟩ : ∃ m, n = m + 1 := ⟨n - 1, (Nat.succ_pred_eq_of_pos h).symm⟩
  exact ⟨by rw [Function.iterate_succ_apply, hiter], rfl, rfl, rfl, rfl, rfl, rfl⟩

/-- Closed instance of `c2_kill_idempotent`: three kills on a running
process. -/
theorem c2_kill_idempotent_witness :
    killSt^[3] runningRepl = killSt runningRepl
    ∧ is_killed (killSt runningRepl) = true
    ∧ is_running (killSt runningRepl) = false
    ∧ kill (killSt runningRepl) = (killSt runningRepl, [])
    ∧ (close (killSt runningRepl)).2 = []
    ∧ is_killed ((close (killSt runningRepl)).1) = true
    ∧ is_running ((close (killSt runningRepl)).1) = false :=
  c2_kill_idempotent runningRepl 3 (by decide)

end Repl

namespace Pool

/-- Every entry the reuse scan keeps was already in the free list. -/
theorem scanFree_mem (h : String) (l : List MProc) :
    ∀ q ∈ (scanFree h l).1, q ∈ l := by
  induction l with
  | nil => simp [scanFree]
  | cons p rest ih =>
      intro q hq
      cases hk : p.killed
      · by_cases hh : p.header = h
        · have : q ∈ rest := by simpa [scanFree, hk, hh] using hq
          exact List.mem_cons_of_mem _ this
        · have : q = p ∨ q ∈ (scanFree h rest).1 := by
            simpa [scanFree, hk, hh] using hq
          rcases this with rfl | hq2
          · exact List.mem_cons_self _ _
          · exact List.mem_cons_of_mem _ (ih q hq2)
      · exact List.mem_cons_of_mem _ (ih q (by simpa [scanFree, hk] using hq))

/-- The reuse scan never grows the free list. -/
theorem scanFree_length_le (h : String) (l : List MProc) :
    (scanFree h l).1.length ≤ l.length := by
  induction l with
  | nil => simp [scanFree]
  | cons p rest ih =>
      cases hk : p.killed
      · by_cases hh : p.header = h
        · simp [scanFree, hk, hh]
        · simp only [scanFree, hk, hh]
          simp only [Bool.false_eq_true, if_false, if_neg hh, List.length_cons]
          omega
      · simp only [scanFree, hk, if_true, List.length_cons]
        omega

/-- When the reuse scan finds a process, the kept free list is strictly
shorter than the original (the found entry moved out, killed entries were
discarded). -/
theorem scanFree_length_found (h : String) (l : List MProc) (p : MProc)
    (hp : (scanFree h l).2 = some p) :
    (scanFree h l).1.length + 1 ≤ l.length := by
  induction l with
  | nil => simp [scanFree] at hp
  | cons q rest ih =>
      cases hk : q.killed
      · by_cases hh : q.header = h
        · simp [scanFree, hk, hh]
        · simp only [scanFree, hk, Bool.false_eq_true, if_false, if_neg hh] at hp ⊢
          have := ih hp
          simp only [List.length_cons]
          omega
      · simp only [scanFree, hk, if_true] at hp ⊢
        have := ih hp
        simp only [List.length_cons]
        omega

/-- The invariant holds in the initial pool. -/
theorem poolInv_init (cap lim : Nat) : PoolInv (initPool cap lim) := by
  constructor <;> simp [initPool, PoolInv]

/-- `checkout` preserves the pool invariant. -/
theorem poolInv_checkout (s : PoolState) (h : String) (reuse : Bool)
    (hs : PoolInv s) : PoolInv (checkout s h reuse).1 := by
  obtain ⟨hfree, hlen⟩ := hs
  cases reuse with
  | false =>
      by_cases hc : s.free.length + s.busy.length < s.capacity
      · refine ⟨?_, ?_⟩ <;> simp only [checkout, Bool.false_eq_true, if_false, if_pos hc]
        · exact hfree
        · simp only [List.length_cons]
          omega
      · refine ⟨?_, ?_⟩ <;> simp only [checkout, Bool.false_eq_true, if_false, if_neg hc]
        · exact hfree
        · exact hlen
  | true =>
      rcases hfd : (scanFree h s.free).2 with _ | p
      · by_cases hc : (scanFree h s.free).1.length + s.busy.length < s.capacity
        · refine ⟨?_, ?_⟩ <;> simp only [checkout, if_true, hfd, if_pos hc]
          · exact fun q hq => hfree q (scanFree_mem h s.free q hq)
          · simp only [List.length_cons]
            omega
        · refine ⟨?_, ?_⟩ <;> simp only [checkout, if_true, hfd, if_neg hc]
          · exact fun q hq => hfree q (scanFree_mem h s.free q hq)
          · have := scanFree_length_le h s.free
            omega
      · refine ⟨?_, ?_⟩ <;> simp only [checkout, if_true, hfd]
        · exact fun q hq => hfree q (scanFree_mem h s.free q hq)
        · have := scanFree_length_found h s.free p hfd
          simp only [List.length_cons]
          omega

/-- `destroy` preserves the pool invariant. -/
theorem poolInv_destroy (s : PoolState) (pid : Nat) (hs : PoolInv s) :
    PoolInv (destroyPid s pid) := by
  obtain ⟨hfree, hlen⟩ := hs
  constructor
  · intro q hq
    simp only [destroyPid] at hq
    exact hfree q (List.mem_of_mem_filter hq)
  · simp only [destroyPid]
    have h1 := List.length_filter_le (fun p : MProc => p.pid != pid) s.free
    have h2 := List.length_filter_le (fun p : MProc => p.pid != pid) s.busy
    omega

/-- `release` preserves the pool invariant. -/
theorem poolInv_release (s : PoolState) (pid : Nat) (hs : PoolInv s) :
    PoolInv (releasePid s pid) := by
  obtain ⟨hfree, hlen⟩ := hs
  rcases hf : s.busy.find? (fun p => p.pid == pid) with _ | p
  · simpa [releasePid, hf] using ⟨hfree, hlen⟩
  · have hpmem : p ∈ s.busy := List.mem_of_find?_eq_some hf
    have hppid : (p.pid == pid) = true := by
      have hx := List.find?_some hf
      simpa using hx
    by_cases hcond : p.killed = true ∨ s.reuseLimit ≤ p.uses
    · have : releasePid s pid = destroyPid s pid := by
        simp [releasePid, hf, hcond]
      rw [this]
      exact poolInv_destroy s pid ⟨hfree, hlen⟩
    · have hmoved : releasePid s pid
          = { s with busy := s.busy.filter (fun q => q.pid != pid),
                     free := s.free ++ [p] } := by
        simp [releasePid, hf, hcond]
      rw [hmoved]
      have hpk : p.killed = false := by
        have h1 : ¬p.killed = true := fun hkk => hcond (Or.inl hkk)
        simpa using h1
      constructor
      · intro q hq
        rcases List.mem_append.1 hq with hql | hqr
        · exact hfree q hql
        · obtain rfl : q = p := by simpa using hqr
          exact hpk
      · have hstrict : (s.busy.filter (fun q => q.pid != pid)).length < s.busy.length := by
          rw [List.length_filter_lt_length_iff_exists]
          exact ⟨p, hpmem, by simpa using beq_iff_eq.mp hppid⟩
        simp only [List.length_append, List.length_cons, List.length_nil]
        omega

/-- `cleanup` preserves the pool invariant. -/
theorem poolInv_cleanup (s : PoolState) (_hs : PoolInv s) :
    PoolInv (cleanup s) := by
  constructor <;> simp [cleanup, PoolInv]

/-- Marking a busy process killed preserves the pool invariant. -/
theorem poolInv_mark (s : PoolState) (pid : Nat) (hs : PoolInv s) :
    PoolInv (markBusyKilled s pid) := by
  obtain ⟨hfree, hlen⟩ := hs
  exact ⟨hfree, by simpa [markBusyKilled] using hlen⟩

/-- C1: every reachable pool state satisfies the invariant — no member of
`free` has its killed flag set and `|free| + |busy| ≤ capacity` — the
invariant being preserved by checkout/get_repl, release, destroy, cleanup
and by a busy process being killed; and releasing a busy process whose
killed flag became true while checked out destroys it, leaving it in
neither collection. -/
theorem c1_pool_invariant :
    (∀ s, Reachable s → PoolInv s)
    ∧ (∀ (s : PoolState) (pid : Nat) (p : MProc),
        s.busy.find? (fun q => q.pid == pid) = some p → p.killed = true →
        (releasePid s pid).free.all (fun q => q.pid != pid) = true
          ∧ (releasePid s pid).busy.all (fun q => q.pid != pid) = true) := by
  constructor
  · intro s hs
    induction hs with
    | init cap lim => exact poolInv_init cap lim
    | step hr hstep ih =>
        cases hstep with
        | checkoutStep h reuse => exact poolInv_checkout _ h reuse ih
        | releaseStep pid => exact poolInv_release _ pid ih
        | destroyStep pid => exact poolInv_destroy _ pid ih
        | cleanupStep => exact poolInv_cleanup _ ih
        | markKilledStep pid => exact poolInv_mark _ pid ih
  · intro s pid p hf hk
    have hdes : releasePid s pid = destroyPid s pid := by
      simp [releasePid, hf, hk]
    rw [hdes]
    constructor
    · simp only [destroyPid]
      exact List.all_eq_true.2 fun q hq => (List.mem_filter.1 hq).2
    · simp only [destroyPid]
      exact List.all_eq_true.2 fun q hq => (List.mem_filter.1 hq).2

/-- Closed instance of `c1_pool_invariant`: the invariant at the initial
pool of capacity 2, and releasing the killed busy process of `demoPool`
leaves it in neither collection. -/
theorem c1_pool_invariant_witness :
    PoolInv (initPool 2 1)
    ∧ ((releasePid demoPool 0).free.all (fun q => q.pid != 0) = true
        ∧ (releasePid demoPool 0).busy.all (fun q => q.pid != 0) = true) :=
  ⟨c1_pool_invariant.1 _ (Reachable.init 2 1),
   c1_pool_invariant.2 demoPool 0
     { pid := 0, killed := true, uses := 0, header := "h" } (by decide) rfl⟩

end Pool
